import Mathlib

/-
Verification of the telegram-quiz-bot repository (src/main.py, src/flask_app.py)
against its natural-language specification.

The development shallowly embeds the relevant parts of the two Python source
files:

* `bulletproof_api_call` (src/main.py, BulletproofTelegramQuizBot) — the
  retrying remote-call executor, embedded as `execLoop` / `bulletproof_api_call`
  over an abstract operation `op : Nat -> CallOutcome`, recording the trace of
  health-monitor reports and sleeps.
* the session stores — `aggressive_cleanup` / `update_user_activity`
  (src/main.py) over three keyed maps, and `cleanup_old_users` /
  `flask_update_user_activity` (src/flask_app.py) over one keyed map of records.
  Python dicts are embedded as insertion-ordered association lists.
* the payload validator of `handle_json_message` (src/main.py) and the poll
  loop of `handle_json` (src/flask_app.py), over an embedded Python-value type
  `PyVal` mirroring what json.loads can produce.
* the message dispatcher `handle_message` (src/flask_app.py).

Timestamps are embedded as integers (the source uses floats only for
ordering/difference comparisons), machine-level concerns do not arise.
-/

/-! ## CallExecutor: src/main.py `bulletproof_api_call` -/

/-- Outcome of one invocation of the wrapped remote operation, following the
except-clauses of `bulletproof_api_call` (src/main.py lines 336-404):
success, RetryAfter, (NetworkError | TimedOut | ConnectionError | OSError),
(BadRequest | Forbidden), TelegramError whose text mentions a timeout,
any other TelegramError, asyncio.TimeoutError, and any other exception. -/
inductive CallOutcome (α : Type) : Type where
  | success (r : α)
  | retryAfter (t : Nat)
  | transient
  | clientError
  | telegramTimeout
  | telegramOther
  | asyncioTimeout
  | unknown
deriving DecidableEq

/-- Observable side effects of the executor, in program order: the
health-monitor reports and the awaited sleeps.  The backoff sleep duration
(`calculate_retry_delay`, exponential backoff plus hash-based jitter) is kept
abstract as the attempt index it was computed from; the rate-limit sleep is
kept exactly, since the source computes it exactly as
`min(e.retry_after + 1, 60)`. -/
inductive ExecEvent : Type where
  | recordSuccess
  | recordFailure
  | sleepRateLimit (secs : Nat)
  | sleepBackoff (attempt : Nat)
  | sleepOne
deriving DecidableEq

/-- Result of running the executor: the returned value (`none` embeds the
`return None` that follows exhaustion or a non-retried error), the number of
invocations of the wrapped operation, and the event trace. -/
structure ExecResult (α : Type) : Type where
  result : Option α
  attempts : Nat
  events : List ExecEvent
deriving DecidableEq

/-- One pass of the `for attempt in range(self.max_retries)` loop of
`bulletproof_api_call`.  `fuel` is the number of loop iterations remaining
(`maxRetries - attempt` at every call site), so the recursion is structural;
`attempt` is the Python loop variable, which also counts invocations of `op`.
Branches follow the source exactly:

* success: `record_success()`, return the result;
* `RetryAfter t`: sleep `min (t + 1) 60`, `continue` — no failure recorded,
  and the loop variable advances (the next iteration consumes the budget);
* transient (`NetworkError`/`TimedOut`/`ConnectionError`/`OSError`):
  `record_failure()`; if `attempt < max_retries - 1` sleep with backoff and
  continue, otherwise fall out of the loop and return `None`;
* client error (`BadRequest`/`Forbidden`): `record_failure()` then `break`;
* `TelegramError` mentioning a timeout: like transient;
* other `TelegramError`: `record_failure()` then `break`;
* `asyncio.TimeoutError`: like transient;
* any other exception: `record_failure()`; if `attempt < max_retries - 1`
  sleep 1 second and continue, otherwise `break`. -/
def execLoop {α : Type} (op : Nat → CallOutcome α) (maxRetries : Nat) :
    Nat → Nat → List ExecEvent → ExecResult α
  | 0, attempt, evs => ⟨none, attempt, evs⟩
  | fuel + 1, attempt, evs =>
    match op attempt with
    | .success r => ⟨some r, attempt + 1, evs ++ [.recordSuccess]⟩
    | .retryAfter t =>
      execLoop op maxRetries fuel (attempt + 1) (evs ++ [.sleepRateLimit (min (t + 1) 60)])
    | .transient =>
      if attempt < maxRetries - 1 then
        execLoop op maxRetries fuel (attempt + 1) (evs ++ [.recordFailure, .sleepBackoff attempt])
      else ⟨none, attempt + 1, evs ++ [.recordFailure]⟩
    | .clientError => ⟨none, attempt + 1, evs ++ [.recordFailure]⟩
    | .telegramTimeout =>
      if attempt < maxRetries - 1 then
        execLoop op maxRetries fuel (attempt + 1) (evs ++ [.recordFailure, .sleepBackoff attempt])
      else ⟨none, attempt + 1, evs ++ [.recordFailure]⟩
    | .telegramOther => ⟨none, attempt + 1, evs ++ [.recordFailure]⟩
    | .asyncioTimeout =>
      if attempt < maxRetries - 1 then
        execLoop op maxRetries fuel (attempt + 1) (evs ++ [.recordFailure, .sleepBackoff attempt])
      else ⟨none, attempt + 1, evs ++ [.recordFailure]⟩
    | .unknown =>
      if attempt < maxRetries - 1 then
        execLoop op maxRetries fuel (attempt + 1) (evs ++ [.recordFailure, .sleepOne])
      else ⟨none, attempt + 1, evs ++ [.recordFailure]⟩

/-- `bulletproof_api_call` (src/main.py line 329): run the retry loop from
attempt 0 with an empty trace. -/
def bulletproof_api_call {α : Type} (maxRetries : Nat) (op : Nat → CallOutcome α) : ExecResult α :=
  execLoop op maxRetries maxRetries 0 []

/-! Concrete operations used by the executor claims. -/

/-- An operation that is rate limited on every invocation, with
`retry_after = 5`. -/
def opAlwaysRateLimited : Nat → CallOutcome Unit := fun _ => CallOutcome.retryAfter 5

/-- An operation that fails with a transient network error on every
invocation. -/
def opAlwaysTransient : Nat → CallOutcome Unit := fun _ => CallOutcome.transient

/-- An operation that is rate limited on its first invocation and succeeds on
its second. -/
def opRateLimitedOnce : Nat → CallOutcome Unit := fun n =>
  if n = 0 then CallOutcome.retryAfter 5 else CallOutcome.success ()

/-! ## Insertion-ordered association lists, embedding Python dicts

Python dicts preserve insertion order: assigning an existing key updates it in
place, assigning a new key appends it.  `lookupKey`/`setKey` mirror indexing
and assignment; dict comprehensions and `pop` become list filters. -/

/-- Dict indexing: the value at key `u`, if present. -/
def lookupKey {α : Type} (u : Nat) : List (Nat × α) → Option α
  | [] => none
  | (k, w) :: rest => if k = u then some w else lookupKey u rest

/-- Dict assignment `d[u] = v`: update in place, or append a fresh key. -/
def setKey {α : Type} (u : Nat) (v : α) : List (Nat × α) → List (Nat × α)
  | [] => [(u, v)]
  | (k, w) :: rest => if k = u then (u, v) :: rest else (k, w) :: setKey u v rest

/-- Removing the keys in `ids` (the `for user_id in to_remove: pop` /
`if uid in keep_users` patterns of both source files). -/
def dropIds {α : Type} (ids : List Nat) (m : List (Nat × α)) : List (Nat × α) :=
  m.filter (fun e => !(ids.contains e.1))

/-- Keeping only the keys in `ids` (the `if uid in keep_users` dict
comprehensions of `aggressive_cleanup`). -/
def keepIds {α : Type} (ids : List Nat) (m : List (Nat × α)) : List (Nat × α) :=
  m.filter (fun e => ids.contains e.1)

/-! ## Stable descending sort, embedding Python `sorted(..., reverse=True)`

CPython's `sorted` is stable also with `reverse=True`: entries with equal keys
keep their original relative order.  Insertion sort that inserts an element
before the first element whose key is not larger realises the same stable
order. -/

/-- Insert `e` before the first element whose key is less than or equal to
`key e`; elements with strictly larger keys stay in front. -/
def insertKeyDesc {α : Type} (key : α → Int) (e : α) : List α → List α
  | [] => [e]
  | y :: ys => if key y ≤ key e then e :: y :: ys else y :: insertKeyDesc key e ys

/-- Stable sort by `key`, descending — `sorted(items, key=key, reverse=True)`. -/
def sortKeyDesc {α : Type} (key : α → Int) : List α → List α
  | [] => []
  | x :: xs => insertKeyDesc key x (sortKeyDesc key xs)

/-! ## SessionStore, main-bot variant: src/main.py

`BulletproofTelegramQuizBot` keeps three parallel dicts
(`user_preferences : user_id -> is_anonymous`,
`user_states : user_id -> state string`,
`user_activity : user_id -> last-activity timestamp`).  The only state strings
the source ever stores are "choosing_type" and "waiting_for_json" (the webhook
variant spells the latter "waiting_json"), embedded as `SessState`. -/

/-- The per-user workflow state strings stored by either variant. -/
inductive SessState : Type where
  | choosingType
  | waitingJson
deriving DecidableEq

/-- The three user-data dicts of `BulletproofTelegramQuizBot`. -/
structure BotState : Type where
  userPreferences : List (Nat × Bool)
  userStates : List (Nat × SessState)
  userActivity : List (Nat × Int)
deriving DecidableEq

/-- The empty store a freshly constructed bot starts from. -/
def initialBotState : BotState := ⟨[], [], []⟩

/-- Configuration knobs of the store: `max_stored_users` (default 200) and
`user_data_ttl` (default 1800 seconds). -/
structure BotConfig : Type where
  maxStoredUsers : Nat
  userDataTtl : Int
deriving DecidableEq

/-- The ids the first pass of `aggressive_cleanup` collects:
`[user_id for user_id, last_activity in self.user_activity.items() if
last_activity < cutoff_time]`. -/
def inactiveIds (cutoff : Int) (act : List (Nat × Int)) : List Nat :=
  (act.filter (fun e => e.2 < cutoff)).map Prod.fst

/-- The activity map after the TTL pass of `aggressive_cleanup` on `act`. -/
def ttlSurvivors (cfg : BotConfig) (now : Int) (act : List (Nat × Int)) : List (Nat × Int) :=
  dropIds (inactiveIds (now - cfg.userDataTtl) act) act

/-- `aggressive_cleanup` (src/main.py lines 265-318).  First pass: collect the
users whose `last_activity` is before `now - user_data_ttl` and pop them from
all three dicts.  Second pass: if the activity dict still holds more than
`max_stored_users` entries, sort it by activity descending, keep the ids of
the first `max_stored_users // 2` entries, and rebuild all three dicts keeping
only those ids (dict comprehensions preserve the original iteration order).
The fail-safe `except` path that clears all three dicts is reachable only
through interpreter faults and is embedded as the separate
`emergency_cleanup`. -/
def aggressive_cleanup (cfg : BotConfig) (now : Int) (s : BotState) : BotState :=
  let cutoff := now - cfg.userDataTtl
  let inactive := inactiveIds cutoff s.userActivity
  let prefs1 := dropIds inactive s.userPreferences
  let states1 := dropIds inactive s.userStates
  let act1 := dropIds inactive s.userActivity
  if cfg.maxStoredUsers < act1.length then
    let keepUsers := ((sortKeyDesc (fun e => e.2) act1).take (cfg.maxStoredUsers / 2)).map Prod.fst
    { userPreferences := keepIds keepUsers prefs1
      userStates := keepIds keepUsers states1
      userActivity := keepIds keepUsers act1 }
  else
    { userPreferences := prefs1, userStates := states1, userActivity := act1 }

/-- The `except` fallback of `aggressive_cleanup`: clear all three dicts. -/
def emergency_cleanup (_s : BotState) : BotState := initialBotState

/-- `update_user_activity` (src/main.py lines 252-263): stamp the user's
activity, then run `aggressive_cleanup` if the activity dict now holds more
than `max_stored_users` entries. -/
def update_user_activity (cfg : BotConfig) (u : Nat) (now : Int) (s : BotState) : BotState :=
  let s1 : BotState := { s with userActivity := setKey u now s.userActivity }
  if cfg.maxStoredUsers < s1.userActivity.length then aggressive_cleanup cfg now s1 else s1

/-! ## Python values, embedding what `json.loads` can produce

Strings, numbers (the payloads at hand use integers; floats never reach the
index arithmetic because `isinstance(x, int)` rejects them — a float correct
index behaves like any other non-int and is embedded as `num`-free `other`),
booleans, `None`, lists and dicts.  Python's `bool` is a subclass of `int`,
so `isinstance(True, int)` holds with value 1. -/

/-- A Python value as produced by `json.loads`. -/
inductive PyVal : Type where
  | str (s : String)
  | num (n : Int)
  | bool (b : Bool)
  | null
  | arr (xs : List PyVal)
  | obj (fields : List (String × PyVal))

/-- Python truthiness: empty strings/lists/dicts, zero, `False` and `None`
are falsy. -/
def PyVal.truthy : PyVal → Bool
  | .str s => !s.isEmpty
  | .num n => n != 0
  | .bool b => b
  | .null => false
  | .arr xs => !xs.isEmpty
  | .obj fields => !fields.isEmpty

/-- `isinstance(v, int)` together with the int value: Python ints, and bools
(a subclass of int, `True == 1`, `False == 0`). -/
def PyVal.asInt : PyVal → Option Int
  | .num n => some n
  | .bool b => some (if b then 1 else 0)
  | _ => none

/-- `str(v)` for the scalar values the claims exercise; the rendering of
composite values is irrelevant to every claim (only lengths and presence are
ever inspected) and is abbreviated. -/
def PyVal.pyStr : PyVal → String
  | .str s => s
  | .num n => toString n
  | .bool b => if b then "True" else "False"
  | .null => "None"
  | .arr _ => "<list>"
  | .obj _ => "<dict>"

/-- `v is None`. -/
def PyVal.isNull : PyVal → Bool
  | .null => true
  | _ => false

/-- Dict field access by string key (first occurrence; real dict keys are
unique). -/
def lookupField (k : String) : List (String × PyVal) → Option PyVal
  | [] => none
  | (k2, v) :: rest => if k2 = k then some v else lookupField k rest

/-- The alias-probing pattern `for key in [...]: if key in question and
question[key]: ... break` — the first listed key that is present with a
truthy value. -/
def probeTruthy (keys : List String) (fields : List (String × PyVal)) : Option PyVal :=
  match keys with
  | [] => none
  | k :: rest =>
    match lookupField k fields with
    | some v => if v.truthy then some v else probeTruthy rest fields
    | none => probeTruthy rest fields

/-- The alias-probing pattern used for the correct index, `if key in question
and question[key] is not None` — the first listed key that is present with a
non-`None` value. -/
def probeNotNull (keys : List String) (fields : List (String × PyVal)) : Option PyVal :=
  match keys with
  | [] => none
  | k :: rest =>
    match lookupField k fields with
    | some v => if v.isNull then probeNotNull rest fields else some v
    | none => probeNotNull rest fields

/-- The key-presence probe of `handle_json_message`
(`for key in ["all_q", ...]: if key in quiz_data: questions = quiz_data[key];
break`) — the first listed key that is present, truthy or not. -/
def probePresent (keys : List String) (fields : List (String × PyVal)) : Option PyVal :=
  match keys with
  | [] => none
  | k :: rest =>
    match lookupField k fields with
    | some v => some v
    | none => probePresent rest fields

/-! ## QuizValidator: the per-entry validation loop of `handle_json_message`
(src/main.py lines 1042-1100) -/

/-- A validated, sanitized question as appended to `valid_questions`. -/
structure QuestionRecord : Type where
  q : String
  o : List String
  c : Int
  e : String
deriving DecidableEq

/-- The clamp applied to the extracted correct value:
`if not isinstance(correct, int) or correct < 0 or correct >= len(options):
correct = 0`.  A missing value was already defaulted to the int 0 before the
clamp. -/
def clampCorrect (v : Option PyVal) (numOptions : Nat) : Int :=
  match v with
  | none => 0
  | some w =>
    match w.asInt with
    | some n => if n < 0 ∨ (numOptions : Int) ≤ n then 0 else n
    | none => 0

/-- One pass of the validation loop of `handle_json_message`: skip non-dict
entries; probe the text aliases (`"q"/"question"/"text"/"question_text"`,
presence plus truthiness) and skip if none answers; probe the options aliases
(`"o"/"options"/"choices"/"answers"`) and skip unless the answer is a list of
2 to 4 items; probe the correct-index aliases
(`"c"/"correct"/"correct_option_id"/"answer"/"correct_answer"`, presence plus
non-`None`), default 0, clamp non-int or out-of-range values to 0; probe the
explanation aliases (`"e"/"explanation"/"desc"/"description"`), default the
empty string; then truncate text to 255, each of the first 4 options to 100,
and the explanation to 200 characters. -/
def validateQuestion (question : PyVal) : Option QuestionRecord :=
  match question with
  | .obj fields =>
    match probeTruthy ["q", "question", "text", "question_text"] fields with
    | none => none
    | some qText =>
      match probeTruthy ["o", "options", "choices", "answers"] fields with
      | none => none
      | some opts =>
        match opts with
        | .arr os =>
          if os.length < 2 ∨ 4 < os.length then none
          else
            let correct :=
              probeNotNull ["c", "correct", "correct_option_id", "answer", "correct_answer"] fields
            let c := clampCorrect correct os.length
            let expl :=
              match probeTruthy ["e", "explanation", "desc", "description"] fields with
              | some v => (PyVal.pyStr v).take 200
              | none => ""
            some
              { q := (PyVal.pyStr qText).take 255
                o := (os.take 4).map (fun opt => (PyVal.pyStr opt).take 100)
                c := c
                e := expl }
        | _ => none
  | _ => none

/-- The batch validation of `handle_json_message`:
`for i, question in enumerate(questions[:50])`, appending each surviving
entry. -/
def validQuestions (questions : List PyVal) : List QuestionRecord :=
  (questions.take 50).filterMap validateQuestion

/-- Python's substring test `pat in s` on the underlying character list. -/
def hasSubstrAux (pat : List Char) : List Char → Bool
  | [] => pat.isEmpty
  | c :: rest => pat.isPrefixOf (c :: rest) || hasSubstrAux pat rest

/-- Python's substring test `pat in s`. -/
def hasSubstr (pat s : String) : Bool :=
  hasSubstrAux pat.data s.data

/-! ## The question-list extraction of `handle_json_message`
(src/main.py lines 1006-1038) -/

/-- The ordered key names probed for the question list. -/
def questionKeys : List String := ["all_q", "q", "questions", "all_questions", "quiz", "data"]

/-- Equality of a Python value with a string literal, as used by `key in
some_list` (an element equals the probed string only if it is that string). -/
def PyVal.eqStr (v : PyVal) (k : String) : Bool :=
  match v with
  | .str s => s = k
  | _ => false

/-- Result of locating the question list inside the parsed payload. -/
inductive ExtractResult : Type where
  | questions (qs : List PyVal)
  | noQuestions
  | typeError

/-- Locating the question list (src/main.py lines 1009-1038).  For a dict:
probe `questionKeys` by presence and take the first hit; a missing, falsy or
non-list hit ends in the "No questions found" branch (a falsy hit is replaced
by `[]` because the payload is not a list, a truthy non-list hit fails the
`isinstance(questions, list)` check).  For a top-level list: `key in
quiz_data` tests membership of the key string among the elements — a payload
list containing one of the key strings is then indexed by that string, which
raises `TypeError` into the generic processing-error branch; otherwise the
list itself is the question list, empty lists ending in "No questions found".
For a string: `key in quiz_data` is a substring test, a hit again raises on
indexing; without a hit the fallback yields "No questions found".  For
numbers, booleans and `None`, `key in quiz_data` itself raises `TypeError`. -/
def extractQuestions : PyVal → ExtractResult
  | .obj fields =>
    match probePresent questionKeys fields with
    | some (.arr (x :: xs)) => .questions (x :: xs)
    | some _ => .noQuestions
    | none => .noQuestions
  | .arr xs =>
    if xs.any (fun e => questionKeys.any (fun k => e.eqStr k)) then .typeError
    else if xs.isEmpty then .noQuestions
    else .questions xs
  | .str s =>
    if questionKeys.any (fun k => hasSubstr k s) then .typeError else .noQuestions
  | _ => .typeError

/-! ## The main-bot handlers (store effects)

Each handler of src/main.py first stamps activity via `update_user_activity`;
messages sent to the chat do not touch the store and are left to a success
oracle where their success steers control flow. -/

/-- Possible terminal outcomes of one `handle_json_message` invocation. -/
inductive JsonOutcome : Type where
  | notWaiting
  | malformed
  | processingError
  | noQuestions
  | noValidQuestions
  | sent (n : Nat)
  | sendFailed
deriving DecidableEq

/-- `start_command` (src/main.py lines 602-640): stamp activity, set the
user's state to "choosing_type". -/
def start_command (cfg : BotConfig) (u : Nat) (now : Int) (s : BotState) : BotState :=
  let s1 := update_user_activity cfg u now s
  { s1 with userStates := setKey u SessState.choosingType s1.userStates }

/-- `restart_cycle` (src/main.py lines 940-968): stamp activity, set the
user's state to "choosing_type". -/
def restart_cycle (cfg : BotConfig) (u : Nat) (now : Int) (s : BotState) : BotState :=
  let s1 := update_user_activity cfg u now s
  { s1 with userStates := setKey u SessState.choosingType s1.userStates }

/-- `handle_quiz_type_selection` (src/main.py lines 670-720): stamp activity,
record the anonymity preference, then set the user's state to
"waiting_for_json". -/
def handle_quiz_type_selection (cfg : BotConfig) (u : Nat) (anon : Bool) (now : Int)
    (s : BotState) : BotState :=
  let s1 := update_user_activity cfg u now s
  let s2 : BotState := { s1 with userPreferences := setKey u anon s1.userPreferences }
  { s2 with userStates := setKey u SessState.waitingJson s2.userStates }

/-- `send_quiz_questions` (src/main.py lines 496-552) applied to the
validator's output: iterate `questions[:50]` in order and count the
successful sends.  The defensive re-checks inside the loop (non-empty text
with a default, at least 2 options, re-clamped index) pass on every
`QuestionRecord` produced by the validator, so an attempt is made for every
record and succeeds exactly when the oracle grants the poll send. -/
def send_quiz_questions (sendOk : Nat → Bool) (qs : List QuestionRecord) : Nat :=
  ((qs.take 50).enum.filter (fun p => sendOk p.1)).length

/-- `handle_json_message` (src/main.py lines 970-1204), its effect on the
store plus its terminal outcome.  `payload` is the result of `json.loads`
(`none` embeds `JSONDecodeError`), `sendOk` grants individual poll sends,
`msgOk` grants the "use /start" message of the wrong-state branch (whose
success triggers `start_command`).  Every branch of the waiting-state path —
malformed payload, processing fault, no questions, no valid questions,
successful or failed sending — finishes with `restart_cycle`. -/
def handle_json_message (cfg : BotConfig) (u : Nat) (payload : Option PyVal)
    (sendOk : Nat → Bool) (msgOk : Bool) (now : Int) (s : BotState) : BotState × JsonOutcome :=
  let s0 := update_user_activity cfg u now s
  if lookupKey u s0.userStates ≠ some SessState.waitingJson then
    (if msgOk then start_command cfg u now s0 else s0, JsonOutcome.notWaiting)
  else
    match payload with
    | none => (restart_cycle cfg u now s0, JsonOutcome.malformed)
    | some quizData =>
      match extractQuestions quizData with
      | .typeError => (restart_cycle cfg u now s0, JsonOutcome.processingError)
      | .noQuestions => (restart_cycle cfg u now s0, JsonOutcome.noQuestions)
      | .questions qs =>
        let valid := validQuestions qs
        if valid.isEmpty then (restart_cycle cfg u now s0, JsonOutcome.noValidQuestions)
        else
          let n := send_quiz_questions sendOk valid
          if 0 < n then (restart_cycle cfg u now s0, JsonOutcome.sent n)
          else (restart_cycle cfg u now s0, JsonOutcome.sendFailed)

/-! ## The main-bot event system

Inbound events as delivered by the ingress, plus the background maintenance
tick and the fail-safe clear; a reachable store is the fold of any event
sequence from the empty store. -/

/-- One inbound or background event of the main bot. -/
inductive BotEvent : Type where
  | start (u : Nat) (now : Int)
  | selectType (u : Nat) (anon : Bool) (now : Int)
  | jsonMessage (u : Nat) (payload : Option PyVal) (sendOk : Nat → Bool) (msgOk : Bool) (now : Int)
  | touchOnly (u : Nat) (now : Int)
  | maintenance (now : Int)
  | emergency

/-- The store effect of one event: `/start`; a quiz-type callback; a free-text
payload; the activity-only commands (`/help`, `/status`, `/template`,
`/quickstart`, `/toggle`); the maintenance thread's `aggressive_cleanup`; the
fail-safe clear. -/
def stepEvent (cfg : BotConfig) (s : BotState) : BotEvent → BotState
  | .start u now => start_command cfg u now s
  | .selectType u anon now => handle_quiz_type_selection cfg u anon now s
  | .jsonMessage u payload sendOk msgOk now => (handle_json_message cfg u payload sendOk msgOk now s).1
  | .touchOnly u now => update_user_activity cfg u now s
  | .maintenance now => aggressive_cleanup cfg now s
  | .emergency => emergency_cleanup s

/-- The store reached after a sequence of events from the empty store. -/
def applyEvents (cfg : BotConfig) (evs : List BotEvent) : BotState :=
  evs.foldl (stepEvent cfg) initialBotState

/-! ## SessionStore and handlers, webhook variant: src/flask_app.py

`user_data` maps user ids to small dicts; the keys ever written are "state",
"anonymous" and "last_activity". -/

/-- One `user_data` record of the webhook variant; `none` embeds an absent
key. -/
structure FlaskRec : Type where
  state : Option SessState
  anonymous : Option Bool
  lastActivity : Int
deriving DecidableEq

/-- `cleanup_old_users` (src/flask_app.py lines 53-82).  If the store holds at
most `MAX_USERS` entries it returns immediately — no TTL pass runs.
Otherwise users idle longer than `USER_TTL` are popped; if still over
`MAX_USERS`, the store is cleared and only the `MAX_USERS // 2` most recently
active entries are re-inserted (in sorted order).  The `except` fallback that
clears the whole store is reachable only through interpreter faults and is
not part of this function. -/
def cleanup_old_users (MAXUSERS : Nat) (TTL now : Int)
    (ud : List (Nat × FlaskRec)) : List (Nat × FlaskRec) :=
  if ud.length ≤ MAXUSERS then ud
  else
    let toRemove := (ud.filter (fun e => TTL < now - e.2.lastActivity)).map Prod.fst
    let remaining := dropIds toRemove ud
    if MAXUSERS < remaining.length then
      (sortKeyDesc (fun e => e.2.lastActivity) remaining).take (MAXUSERS / 2)
    else remaining

/-- `update_user_activity` (src/flask_app.py lines 196-200): create an empty
record if the user is new, then stamp `last_activity`.  (Unlike the main bot,
this touch triggers no eviction; `cleanup_old_users` runs from the webhook
endpoint every 100 requests.) -/
def flask_update_user_activity (u : Nat) (now : Int)
    (ud : List (Nat × FlaskRec)) : List (Nat × FlaskRec) :=
  match lookupKey u ud with
  | some r => setKey u { r with lastActivity := now } ud
  | none => ud ++ [(u, ⟨none, none, now⟩)]

/-- The "state" field of a user's record, `user_data.get(user_id,
{}).get("state")`. -/
def stateOf (u : Nat) (ud : List (Nat × FlaskRec)) : Option SessState :=
  match lookupKey u ud with
  | some r => r.state
  | none => none

/-- `handle_start` (src/flask_app.py lines 307-349): replace the user's record
with `{"state": "choosing_type", "last_activity": now}`. -/
def flask_handle_start (u : Nat) (now : Int)
    (ud : List (Nat × FlaskRec)) : List (Nat × FlaskRec) :=
  setKey u ⟨some SessState.choosingType, none, now⟩ ud

/-- `handle_callback` (src/flask_app.py lines 407-460): stamp activity, then
replace the user's record with `{"state": "waiting_json", "anonymous": anon,
"last_activity": now}`. -/
def flask_handle_callback (u : Nat) (anon : Bool) (now : Int)
    (ud : List (Nat × FlaskRec)) : List (Nat × FlaskRec) :=
  setKey u ⟨some SessState.waitingJson, some anon, now⟩ (flask_update_user_activity u now ud)

/-- `handle_json` (src/flask_app.py lines 462-547), its effect on the store.
If the user's state is not "waiting_json": a prompt is sent and the store is
untouched.  A `json.JSONDecodeError` (`payload = none`) sends an error message
and leaves the store untouched — the state is NOT reset.  For a parsed dict,
`quiz_data.get("all_q", [])` is taken: a falsy value sends "No questions
found" and leaves the store untouched; a truthy list (or string, whose
characters all fail the per-question lookup) runs the poll loop and then
replaces the record with `{"state": "choosing_type", "last_activity": now}`;
truthy values that cannot be sliced (numbers, `True`, dicts) raise into the
generic error branch, store untouched.  A non-dict payload raises
`AttributeError` on `.get`, also into the generic error branch. -/
def flask_handle_json (payload : Option PyVal) (u : Nat) (now : Int)
    (ud : List (Nat × FlaskRec)) : List (Nat × FlaskRec) :=
  if stateOf u ud ≠ some SessState.waitingJson then ud
  else
    match payload with
    | none => ud
    | some quizData =>
      match quizData with
      | .obj fields =>
        let questions := (lookupField "all_q" fields).getD (.arr [])
        if !questions.truthy then ud
        else
          match questions with
          | .arr _ => setKey u ⟨some SessState.choosingType, none, now⟩ ud
          | .str _ => setKey u ⟨some SessState.choosingType, none, now⟩ ud
          | _ => ud
      | _ => ud

/-- A quiz poll as assembled by `safe_send_poll` (src/flask_app.py lines
132-166): question truncated to 255, the first 4 options each truncated to
100 and padded to a minimum of 2, the correct id clamped to 0 when not an
int, negative, or out of range, the explanation truncated to 200 (empty when
falsy). -/
structure PollData : Type where
  question : String
  options : List String
  correctOptionId : Int
  explanation : String
deriving DecidableEq

/-- `safe_send_poll`'s sanitization (src/flask_app.py lines 132-155). -/
def flask_safe_send_poll (question : PyVal) (options : List PyVal)
    (correctId : PyVal) (explanation : PyVal) : PollData :=
  let q := (PyVal.pyStr question).take 255
  let opts := (options.take 4).map (fun opt => (PyVal.pyStr opt).take 100)
  let opts := if opts.length < 2 then ["Option A", "Option B"] else opts
  let c :=
    match correctId.asInt with
    | some n => if n < 0 ∨ (opts.length : Int) ≤ n then 0 else n
    | none => 0
  let e := if explanation.truthy then (PyVal.pyStr explanation).take 200 else ""
  ⟨q, opts, c, e⟩

/-- One iteration of the poll loop of `handle_json` (src/flask_app.py lines
494-515): fields are read with `.get` defaults (`"q"` defaulting to
"Question i+1"), and a poll is sent when the options value has `len(...) >= 2`
— a list of its elements, or a string of its characters; non-dict entries and
un-measurable options values raise into the per-question `except` and are
skipped. -/
def flask_question_poll (i : Nat) (qd : PyVal) : Option PollData :=
  match qd with
  | .obj fields =>
    let qv := (lookupField "q" fields).getD (.str ("Question " ++ toString (i + 1)))
    let ov := (lookupField "o" fields).getD (.arr [.str "Option A", .str "Option B"])
    let cv := (lookupField "c" fields).getD (.num 0)
    let ev := (lookupField "e" fields).getD (.str "")
    match ov with
    | .arr os =>
      if 2 ≤ os.length then some (flask_safe_send_poll qv os cv ev) else none
    | .str s =>
      if 2 ≤ s.length then
        some (flask_safe_send_poll qv (s.data.map (fun ch => .str (String.singleton ch))) cv ev)
      else none
    | _ => none
  | _ => none

/-- The polls attempted by `handle_json` for a question list:
`for i, q_data in enumerate(questions[:max_questions])` with
`max_questions = 20`. -/
def flask_poll_calls (questions : List PyVal) : List PollData :=
  (questions.take 20).enum.filterMap (fun p => flask_question_poll p.1 p.2)

/-! ## The webhook message dispatcher: `handle_message`
(src/flask_app.py lines 276-305) -/

/-- Where `handle_message` routes an inbound text. -/
inductive FlaskRoute : Type where
  | startCmd
  | helpCmd
  | statusCmd
  | templateCmd
  | jsonPayload
  | welcome
deriving DecidableEq

/-- Python's default `str.strip` whitespace (the ASCII part, which covers the
texts at issue). -/
def pyIsSpace (c : Char) : Bool :=
  c = ' ' || c = '\t' || c = '\n' || c = '\r' || c = '\x0b' || c = '\x0c'

/-- `text.strip()` as a character list: drop whitespace from both ends. -/
def pyStrip (s : String) : List Char :=
  ((s.data.dropWhile pyIsSpace).reverse.dropWhile pyIsSpace).reverse

/-- The routing chain of `handle_message` over the stripped text: the four
command tests by `str.startswith`, then the payload test — the text starts
with a brace or contains the substring quoted-all_q — and otherwise the
generic welcome prompt. -/
def dispatchText (text : String) : FlaskRoute :=
  let t := pyStrip text
  if "/start".data.isPrefixOf t then .startCmd
  else if "/help".data.isPrefixOf t then .helpCmd
  else if "/status".data.isPrefixOf t then .statusCmd
  else if "/template".data.isPrefixOf t then .templateCmd
  else if "\x7b".data.isPrefixOf t || hasSubstrAux "\"all_q\"".data t then .jsonPayload
  else .welcome

/-- `handle_message`'s effect on the store: stamp activity, then dispatch.
`/start` rewrites the record via `handle_start`; `/help`, `/status` and
`/template` only send messages; the payload route runs `handle_json` on the
parse of the text (`parse` embeds `json.loads`); the welcome route only sends
the prompt. -/
def flask_handle_message (text : String) (u : Nat) (now : Int)
    (parse : String → Option PyVal) (ud : List (Nat × FlaskRec)) : List (Nat × FlaskRec) :=
  let ud1 := flask_update_user_activity u now ud
  match dispatchText text with
  | .startCmd => flask_handle_start u now ud1
  | .helpCmd => ud1
  | .statusCmd => ud1
  | .templateCmd => ud1
  | .jsonPayload => flask_handle_json (parse (String.mk (pyStrip text))) u now ud1
  | .welcome => ud1

/-! ## Store invariant and concrete inputs used by the claims -/

/-- The session-store invariant of claim C9: every user whose stored state is
"waiting_for_json" has a stored anonymity preference. -/
def InvStatePref (s : BotState) : Prop :=
  ∀ u, lookupKey u s.userStates = some SessState.waitingJson →
    (lookupKey u s.userPreferences).isSome = true

/-- Fields of a question entry with two options and the out-of-range correct
index 5, but no question text under any accepted alias. -/
def entryNoTextFields : List (String × PyVal) :=
  [("o", PyVal.arr [PyVal.str "A", PyVal.str "B"]), ("c", PyVal.num 5)]

/-- Fields of a question entry with text, two options and the out-of-range
correct index 5. -/
def entryBadIndexFields : List (String × PyVal) :=
  [("q", PyVal.str "Capital?"), ("o", PyVal.arr [PyVal.str "A", PyVal.str "B"]),
    ("c", PyVal.num 5)]

/-- A well-formed two-option question entry, used to build oversized
payloads. -/
def twoOptionEntry : PyVal :=
  PyVal.obj [("o", PyVal.arr [PyVal.str "A", PyVal.str "B"])]

/-- A webhook-store record in state "waiting_json" with a recorded
preference. -/
def waitingRec : FlaskRec := ⟨some SessState.waitingJson, some true, 0⟩

/-- A webhook-store record with no state and an old activity stamp. -/
def staleRec : FlaskRec := ⟨none, none, 0⟩

/-- A main-bot store holding a single user in state "waiting_for_json". -/
def sWait : BotState := ⟨[(7, true)], [(7, SessState.waitingJson)], [(7, 0)]⟩

/-! FURTHER_DEFINITIONS_ANCHOR -/

/-! Helper lemmas about the executor loop. -/

theorem execLoop_events_eq_append {α : Type} (op : Nat → CallOutcome α) (maxRetries : Nat) :
    ∀ (fuel attempt : Nat) (evs : List ExecEvent),
      ∃ tail, (execLoop op maxRetries fuel attempt evs).events = evs ++ tail := by
  intro fuel
  induction fuel with
  | zero => intro attempt evs; exact ⟨[], by simp [execLoop]⟩
  | succ fuel ih =>
    intro attempt evs
    unfold execLoop
    rcases h : op attempt with r | t | _ | _ | _ | _ | _ | _ <;> simp only
    · exact ⟨[.recordSuccess], rfl⟩
    · obtain ⟨tail, ht⟩ := ih (attempt + 1) (evs ++ [.sleepRateLimit (min (t + 1) 60)])
      exact ⟨[.sleepRateLimit (min (t + 1) 60)] ++ tail, by simpa using ht⟩
    · by_cases hc : attempt < maxRetries - 1
      · simp only [hc, if_true]
        obtain ⟨tail, ht⟩ := ih (attempt + 1) (evs ++ [.recordFailure, .sleepBackoff attempt])
        exact ⟨[.recordFailure, .sleepBackoff attempt] ++ tail, by simpa using ht⟩
      · simp only [hc, if_false]; exact ⟨[.recordFailure], rfl⟩
    · exact ⟨[.recordFailure], rfl⟩
    · by_cases hc : attempt < maxRetries - 1
      · simp only [hc, if_true]
        obtain ⟨tail, ht⟩ := ih (attempt + 1) (evs ++ [.recordFailure, .sleepBackoff attempt])
        exact ⟨[.recordFailure, .sleepBackoff attempt] ++ tail, by simpa using ht⟩
      · simp only [hc, if_false]; exact ⟨[.recordFailure], rfl⟩
    · exact ⟨[.recordFailure], rfl⟩
    · by_cases hc : attempt < maxRetries - 1
      · simp only [hc, if_true]
        obtain ⟨tail, ht⟩ := ih (attempt + 1) (evs ++ [.recordFailure, .sleepBackoff attempt])
        exact ⟨[.recordFailure, .sleepBackoff attempt] ++ tail, by simpa using ht⟩
      · simp only [hc, if_false]; exact ⟨[.recordFailure], rfl⟩
    · by_cases hc : attempt < maxRetries - 1
      · simp only [hc, if_true]
        obtain ⟨tail, ht⟩ := ih (attempt + 1) (evs ++ [.recordFailure, .sleepOne])
        exact ⟨[.recordFailure, .sleepOne] ++ tail, by simpa using ht⟩
      · simp only [hc, if_false]; exact ⟨[.recordFailure], rfl⟩

theorem execLoop_attempts_le {α : Type} (op : Nat → CallOutcome α) (maxRetries : Nat) :
    ∀ (fuel attempt : Nat) (evs : List ExecEvent),
      (execLoop op maxRetries fuel attempt evs).attempts ≤ attempt + fuel := by
  intro fuel
  induction fuel with
  | zero => intro attempt evs; simp [execLoop]
  | succ fuel ih =>
    intro attempt evs
    unfold execLoop
    rcases op attempt with r | t | _ | _ | _ | _ | _ | _ <;> simp only <;>
      first
        | omega
        | (exact le_trans (ih _ _) (by omega))
        | (split
           · exact le_trans (ih _ _) (by omega)
           · simp only; omega)

/-- If the executor reached invocation `n` (i.e. `n` is below the final
invocation count) and the operation answered that invocation with
`retryAfter t`, then the trace contains the exact sleep
`min (t + 1) 60`. -/
theorem execLoop_rateLimit_sleep {α : Type} (op : Nat → CallOutcome α) (maxRetries : Nat)
    (n t : Nat) (hop : op n = CallOutcome.retryAfter t) :
    ∀ (fuel attempt : Nat) (evs : List ExecEvent), attempt ≤ n →
      n < (execLoop op maxRetries fuel attempt evs).attempts →
      ExecEvent.sleepRateLimit (min (t + 1) 60) ∈ (execLoop op maxRetries fuel attempt evs).events := by
  intro fuel
  induction fuel with
  | zero =>
    intro attempt evs hle hlt
    simp only [execLoop] at hlt
    omega
  | succ fuel ih =>
    intro attempt evs hle hlt
    by_cases heq : attempt = n
    · subst heq
      unfold execLoop
      rw [hop]
      simp only
      obtain ⟨tail, htail⟩ :=
        execLoop_events_eq_append op maxRetries fuel (attempt + 1)
          (evs ++ [ExecEvent.sleepRateLimit (min (t + 1) 60)])
      rw [htail]
      simp
    · have hlt2 : attempt < n := lt_of_le_of_ne hle heq
      unfold execLoop at hlt ⊢
      rcases hcase : op attempt with r | s | _ | _ | _ | _ | _ | _ <;>
        rw [hcase] at hlt <;> simp only at hlt ⊢
      · omega
      · exact ih (attempt + 1) _ (by omega) hlt
      · split at hlt
        · rename_i hc
          simp only [hc, if_true]
          exact ih (attempt + 1) _ (by omega) hlt
        · simp only at hlt; omega
      · omega
      · split at hlt
        · rename_i hc
          simp only [hc, if_true]
          exact ih (attempt + 1) _ (by omega) hlt
        · simp only at hlt; omega
      · omega
      · split at hlt
        · rename_i hc
          simp only [hc, if_true]
          exact ih (attempt + 1) _ (by omega) hlt
        · simp only at hlt; omega
      · split at hlt
        · rename_i hc
          simp only [hc, if_true]
          exact ih (attempt + 1) _ (by omega) hlt
        · simp only at hlt; omega

/-- The trace contains exactly one `recordSuccess` when the executor returns a
value, and none when it returns `None`. -/
theorem execLoop_recordSuccess_count {α : Type} (op : Nat → CallOutcome α) (maxRetries : Nat) :
    ∀ (fuel attempt : Nat) (evs : List ExecEvent),
      (execLoop op maxRetries fuel attempt evs).events.count ExecEvent.recordSuccess =
        evs.count ExecEvent.recordSuccess +
          (if (execLoop op maxRetries fuel attempt evs).result.isSome then 1 else 0) := by
  intro fuel
  induction fuel with
  | zero => intro attempt evs; simp [execLoop]
  | succ fuel ih =>
    intro attempt evs
    unfold execLoop
    rcases op attempt with r | t | _ | _ | _ | _ | _ | _ <;> simp only
    · simp [List.count_append]
    · rw [ih]; simp [List.count_append]
    · split
      · rw [ih]; simp [List.count_append]
      · simp [List.count_append]
    · simp [List.count_append]
    · split
      · rw [ih]; simp [List.count_append]
      · simp [List.count_append]
    · simp [List.count_append]
    · split
      · rw [ih]; simp [List.count_append]
      · simp [List.count_append]
    · split
      · rw [ih]; simp [List.count_append]
      · simp [List.count_append]

/-- Against an operation that fails with a transient network error on every
invocation, the loop performs one invocation per remaining iteration, records
one failure per invocation, and returns `None`. -/
theorem execLoop_all_transient {α : Type} (op : Nat → CallOutcome α) (maxRetries : Nat)
    (hop : ∀ n, op n = CallOutcome.transient) :
    ∀ (fuel attempt : Nat) (evs : List ExecEvent), fuel + attempt = maxRetries →
      (execLoop op maxRetries fuel attempt evs).result = none ∧
        (execLoop op maxRetries fuel attempt evs).attempts = maxRetries ∧
        (execLoop op maxRetries fuel attempt evs).events.count ExecEvent.recordFailure =
          evs.count ExecEvent.recordFailure + fuel := by
  intro fuel
  induction fuel with
  | zero =>
    intro attempt evs hinv
    refine ⟨rfl, ?_, ?_⟩
    · simp only [execLoop]; omega
    · simp [execLoop]
  | succ fuel ih =>
    intro attempt evs hinv
    unfold execLoop
    rw [hop attempt]
    simp only
    by_cases hc : attempt < maxRetries - 1
    · simp only [hc, if_true]
      obtain ⟨h1, h2, h3⟩ := ih (attempt + 1) (evs ++ [.recordFailure, .sleepBackoff attempt]) (by omega)
      refine ⟨h1, h2, ?_⟩
      rw [h3]
      simp [List.count_append]
      omega
    · have hfuel : fuel = 0 := by omega
      subst hfuel
      simp only [hc, if_false]
      refine ⟨by trivial, by omega, by simp [List.count_append]⟩

/-! ## Claims C1-C3: the executor -/

/-- Claim C1, counterexample.  The claim states that a rate-limited retry is
not counted against the `maxRetries` attempt budget, the call still getting up
to `maxRetries` Transient/Unknown attempts afterwards.  In the source the
`RetryAfter` branch re-enters the `for attempt in range(self.max_retries)`
loop via `continue`, so the loop variable advances: against an operation that
answers `RetryAfter(5)` every time, the executor with `max_retries = 3` sleeps
the rate-limit wait three times, makes no further attempt of any kind, and
returns `None` — the three rate-limited invocations consumed the whole budget
and zero Transient/Unknown attempts remained. -/
theorem c1_counterexample :
    (bulletproof_api_call 3 opAlwaysRateLimited).result = none ∧
      (bulletproof_api_call 3 opAlwaysRateLimited).attempts = 3 ∧
      (bulletproof_api_call 3 opAlwaysRateLimited).events =
        [ExecEvent.sleepRateLimit 6, ExecEvent.sleepRateLimit 6, ExecEvent.sleepRateLimit 6] := by
  decide

/-- Claim C1, amended.  For every remote call that the executor retries after
a RateLimited response carrying `retryAfterSeconds = t`, the executor waits
exactly `min(t + 1, 60)` seconds before the retry; however, the rate-limited
invocation is counted against the `maxRetries` attempt budget: the total
number of invocations, rate-limited ones included, never exceeds
`maxRetries`. -/
theorem c1_rate_limit_wait_and_budget {α : Type} (maxRetries n t : Nat)
    (op : Nat → CallOutcome α) (hop : op n = CallOutcome.retryAfter t)
    (hreach : n < (bulletproof_api_call maxRetries op).attempts) :
    ExecEvent.sleepRateLimit (min (t + 1) 60) ∈ (bulletproof_api_call maxRetries op).events ∧
      (bulletproof_api_call maxRetries op).attempts ≤ maxRetries := by
  constructor
  · exact execLoop_rateLimit_sleep op maxRetries n t hop maxRetries 0 [] (Nat.zero_le n) hreach
  · simpa using execLoop_attempts_le op maxRetries maxRetries 0 []

/-- Witness for `c1_rate_limit_wait_and_budget`: an operation rate limited
with `retry_after = 5` on its first invocation that succeeds on its second;
the wait of `min (5 + 1) 60 = 6` seconds is in the trace and at most 3
invocations were made. -/
theorem c1_rate_limit_wait_and_budget_witness :
    ExecEvent.sleepRateLimit (min (5 + 1) 60) ∈ (bulletproof_api_call 3 opRateLimitedOnce).events ∧
      (bulletproof_api_call 3 opRateLimitedOnce).attempts ≤ 3 :=
  c1_rate_limit_wait_and_budget 3 0 5 opRateLimitedOnce (by decide) (by decide)

/-- Claim C2: against an operation that fails with a Transient (network or
timeout) error on every invocation, `bulletproof_api_call` performs exactly
`maxRetries` attempts and then returns `None` — a failure value, not a raised
exception (every except-clause of the source either continues the loop or
falls through to `return None`, which the embedding mirrors by being a total
function into `ExecResult`). -/
theorem c2_transient_exhaustion {α : Type} (maxRetries : Nat) (op : Nat → CallOutcome α)
    (hop : ∀ n, op n = CallOutcome.transient) :
    (bulletproof_api_call maxRetries op).result = none ∧
      (bulletproof_api_call maxRetries op).attempts = maxRetries := by
  obtain ⟨h1, h2, _⟩ :=
    execLoop_all_transient op maxRetries hop maxRetries 0 [] (by omega)
  exact ⟨h1, h2⟩

/-- Witness for `c2_transient_exhaustion` at the default budget
`max_retries = 3`. -/
theorem c2_transient_exhaustion_witness :
    (bulletproof_api_call 3 opAlwaysTransient).result = none ∧
      (bulletproof_api_call 3 opAlwaysTransient).attempts = 3 :=
  c2_transient_exhaustion 3 opAlwaysTransient (fun _ => rfl)

/-- Claim C3, counterexample.  The claim states that a call whose retries are
exhausted triggers `record_failure` exactly once, intermediate failed attempts
producing no report.  In the source `self.health_monitor.record_failure()` is
executed inside every failing except-clause, once per failed attempt: a call
that fails transiently on all of its 3 attempts reports 3 failures, not 1. -/
theorem c3_counterexample :
    (bulletproof_api_call 3 opAlwaysTransient).events.count ExecEvent.recordFailure = 3 ∧
      ¬(bulletproof_api_call 3 opAlwaysTransient).events.count ExecEvent.recordFailure = 1 := by
  decide

/-- Claim C3, amended.  A successful call reports `record_success` exactly
once; a call that exhausts its retries against always-transient errors reports
`record_failure` once per failed attempt — `maxRetries` times in total, not
once per terminal outcome. -/
theorem c3_health_reports {α : Type} (maxRetries : Nat) (op : Nat → CallOutcome α) :
    ((bulletproof_api_call maxRetries op).result.isSome = true →
        (bulletproof_api_call maxRetries op).events.count ExecEvent.recordSuccess = 1) ∧
      ((∀ n, op n = CallOutcome.transient) →
        (bulletproof_api_call maxRetries op).events.count ExecEvent.recordFailure = maxRetries) := by
  constructor
  · intro hsome
    have h := execLoop_recordSuccess_count op maxRetries maxRetries 0 []
    unfold bulletproof_api_call at hsome ⊢
    rw [hsome] at h
    simpa using h
  · intro hop
    obtain ⟨_, _, h3⟩ :=
      execLoop_all_transient op maxRetries hop maxRetries 0 [] (by omega)
    simpa using h3

/-- Witness for `c3_health_reports`: a call that succeeds on its second
invocation reports success exactly once, and an all-transient call at budget 3
reports three failures. -/
theorem c3_health_reports_witness :
    (bulletproof_api_call 3 opRateLimitedOnce).events.count ExecEvent.recordSuccess = 1 ∧
      (bulletproof_api_call 3 opAlwaysTransient).events.count ExecEvent.recordFailure = 3 :=
  ⟨(c3_health_reports 3 opRateLimitedOnce).1 (by decide),
    (c3_health_reports 3 opAlwaysTransient).2 (fun _ => rfl)⟩

/-! ## Association-list lemmas -/

theorem lookupKey_setKey_self {α : Type} (u : Nat) (v : α) (l : List (Nat × α)) :
    lookupKey u (setKey u v l) = some v := by
  induction l with
  | nil => simp [setKey, lookupKey]
  | cons e rest ih =>
    obtain ⟨k, w⟩ := e
    by_cases h : k = u
    · simp [setKey, h, lookupKey]
    · simp [setKey, h, lookupKey, ih]

theorem lookupKey_setKey_ne {α : Type} (u v2 : Nat) (v : α) (l : List (Nat × α))
    (h : v2 ≠ u) : lookupKey v2 (setKey u v l) = lookupKey v2 l := by
  have h2 : u ≠ v2 := Ne.symm h
  induction l with
  | nil => simp [setKey, lookupKey, h2]
  | cons e rest ih =>
    obtain ⟨k, w⟩ := e
    by_cases hk : k = u
    · subst hk
      simp [setKey, lookupKey, h2]
    · simp [setKey, hk, lookupKey, ih]

theorem lookupKey_filter_key {α : Type} (p : Nat → Bool) (u : Nat) (l : List (Nat × α)) :
    lookupKey u (l.filter (fun e => p e.1)) = if p u then lookupKey u l else none := by
  induction l with
  | nil => simp [lookupKey]
  | cons e rest ih =>
    obtain ⟨k, w⟩ := e
    by_cases hk : k = u
    · subst hk
      by_cases hp : p k
      · simp [List.filter_cons, hp, lookupKey]
      · simp [List.filter_cons, hp, lookupKey, ih]
    · by_cases hp : p k
      · simp [List.filter_cons, hp, lookupKey, hk, ih]
      · simp [List.filter_cons, hp, lookupKey, hk, ih]

theorem lookupKey_eq_none_iff {α : Type} (u : Nat) (l : List (Nat × α)) :
    lookupKey u l = none ↔ u ∉ l.map Prod.fst := by
  induction l with
  | nil => simp [lookupKey]
  | cons e rest ih =>
    obtain ⟨k, w⟩ := e
    by_cases hk : k = u
    · subst hk
      simp [lookupKey]
    · have hk2 : u ≠ k := Ne.symm hk
      simp [lookupKey, hk, ih, hk2]

theorem lookupKey_mem {α : Type} {u : Nat} {v : α} {l : List (Nat × α)}
    (h : lookupKey u l = some v) : (u, v) ∈ l := by
  induction l with
  | nil => simp [lookupKey] at h
  | cons e rest ih =>
    obtain ⟨k, w⟩ := e
    by_cases hk : k = u
    · subst hk
      simp [lookupKey] at h
      simp [h]
    · simp [lookupKey, hk] at h
      simp [ih h]

theorem lookupKey_append {α : Type} (v : Nat) (l l2 : List (Nat × α)) :
    lookupKey v (l ++ l2) = (lookupKey v l).or (lookupKey v l2) := by
  induction l with
  | nil => simp [lookupKey]
  | cons e rest ih =>
    obtain ⟨k, w⟩ := e
    by_cases hk : k = v
    · simp [lookupKey, hk]
    · simp [lookupKey, hk, ih]

theorem mem_keys_setKey {α : Type} {w u : Nat} {v : α} {l : List (Nat × α)}
    (h : w ∈ (setKey u v l).map Prod.fst) : w = u ∨ w ∈ l.map Prod.fst := by
  induction l with
  | nil => simp [setKey] at h; simp [h]
  | cons e rest ih =>
    obtain ⟨k, w2⟩ := e
    by_cases hk : k = u
    · subst hk
      simp [setKey] at h
      rcases h with h | h
      · exact Or.inl h
      · exact Or.inr (by simp [h])
    · simp [setKey, hk] at h
      rcases h with h | h
      · exact Or.inr (by simp [h])
      · rcases ih (by simpa using h) with h2 | h2
        · exact Or.inl h2
        · exact Or.inr (by simp [h2])

theorem nodup_keys_setKey {α : Type} (u : Nat) (v : α) (l : List (Nat × α))
    (h : (l.map Prod.fst).Nodup) : ((setKey u v l).map Prod.fst).Nodup := by
  induction l with
  | nil => simp [setKey]
  | cons e rest ih =>
    obtain ⟨k, w⟩ := e
    simp only [List.map_cons, List.nodup_cons] at h
    by_cases hk : k = u
    · subst hk
      simpa [setKey] using h
    · simp only [setKey, hk, if_false, List.map_cons, List.nodup_cons]
      refine ⟨?_, ih h.2⟩
      intro hmem
      rcases mem_keys_setKey hmem with h2 | h2
      · exact hk h2
      · exact h.1 h2

theorem key_val_unique {α : Type} {l : List (Nat × α)} (h : (l.map Prod.fst).Nodup)
    {u : Nat} {a b : α} (ha : (u, a) ∈ l) (hb : (u, b) ∈ l) : a = b := by
  induction l with
  | nil => simp at ha
  | cons e rest ih =>
    obtain ⟨k, w⟩ := e
    simp only [List.map_cons, List.nodup_cons] at h
    simp only [List.mem_cons, Prod.mk.injEq] at ha hb
    rcases ha with ⟨hak, hav⟩ | ha <;> rcases hb with ⟨hbk, hbv⟩ | hb
    · exact hav.trans hbv.symm
    · exact absurd (hak ▸ List.mem_map_of_mem Prod.fst hb) h.1
    · exact absurd (hbk ▸ List.mem_map_of_mem Prod.fst ha) h.1
    · exact ih h.2 ha hb

theorem map_fst_filter_key {α : Type} (p : Nat → Bool) (l : List (Nat × α)) :
    (l.filter (fun e => p e.1)).map Prod.fst = (l.map Prod.fst).filter p := by
  induction l with
  | nil => rfl
  | cons e rest ih =>
    obtain ⟨k, w⟩ := e
    by_cases hp : p k <;> simp [List.filter_cons, hp, ih]

theorem contains_iff_mem {l : List Nat} {a : Nat} : l.contains a = true ↔ a ∈ l :=
  List.elem_iff

/-! ## Stable-sort lemmas -/

theorem insertKeyDesc_perm {α : Type} (key : α → Int) (e : α) (l : List α) :
    (insertKeyDesc key e l).Perm (e :: l) := by
  induction l with
  | nil => simp [insertKeyDesc]
  | cons y ys ih =>
    by_cases h : key y ≤ key e
    · simp [insertKeyDesc, h]
    · simp only [insertKeyDesc, h, if_false]
      exact (ih.cons y).trans (List.Perm.swap e y ys)

theorem sortKeyDesc_perm {α : Type} (key : α → Int) (l : List α) :
    (sortKeyDesc key l).Perm l := by
  induction l with
  | nil => simp [sortKeyDesc]
  | cons x xs ih =>
    exact (insertKeyDesc_perm key x (sortKeyDesc key xs)).trans (ih.cons x)

theorem insertKeyDesc_pairwise {α : Type} (key : α → Int) (e : α) (l : List α)
    (h : List.Pairwise (fun a b => key b ≤ key a) l) :
    List.Pairwise (fun a b => key b ≤ key a) (insertKeyDesc key e l) := by
  induction l with
  | nil => simp [insertKeyDesc]
  | cons y ys ih =>
    rw [List.pairwise_cons] at h
    by_cases hc : key y ≤ key e
    · simp only [insertKeyDesc, hc, if_true]
      rw [List.pairwise_cons]
      refine ⟨?_, List.Pairwise.cons h.1 h.2⟩
      intro b hb
      rcases List.mem_cons.1 hb with hb | hb
      · rw [hb]; exact hc
      · exact le_trans (h.1 b hb) hc
    · simp only [insertKeyDesc, hc, if_false]
      rw [List.pairwise_cons]
      refine ⟨?_, ih h.2⟩
      intro b hb
      have hb2 : b ∈ e :: ys := (insertKeyDesc_perm key e ys).mem_iff.1 hb
      rcases List.mem_cons.1 hb2 with hb2 | hb2
      · rw [hb2]; exact le_of_lt (lt_of_not_le hc)
      · exact h.1 b hb2

theorem sortKeyDesc_pairwise {α : Type} (key : α → Int) (l : List α) :
    List.Pairwise (fun a b => key b ≤ key a) (sortKeyDesc key l) := by
  induction l with
  | nil => simp [sortKeyDesc]
  | cons x xs ih => exact insertKeyDesc_pairwise key x (sortKeyDesc key xs) ih

/-! ## Store-level lemmas -/

theorem aggressive_cleanup_userActivity (cfg : BotConfig) (now : Int) (s : BotState) :
    (aggressive_cleanup cfg now s).userActivity =
      if cfg.maxStoredUsers < (ttlSurvivors cfg now s.userActivity).length then
        keepIds
          (((sortKeyDesc (fun e => e.2) (ttlSurvivors cfg now s.userActivity)).take
            (cfg.maxStoredUsers / 2)).map Prod.fst)
          (ttlSurvivors cfg now s.userActivity)
      else ttlSurvivors cfg now s.userActivity := by
  simp only [aggressive_cleanup, ttlSurvivors, apply_ite BotState.userActivity]

theorem aggressive_cleanup_userStates (cfg : BotConfig) (now : Int) (s : BotState) :
    (aggressive_cleanup cfg now s).userStates =
      if cfg.maxStoredUsers < (ttlSurvivors cfg now s.userActivity).length then
        keepIds
          (((sortKeyDesc (fun e => e.2) (ttlSurvivors cfg now s.userActivity)).take
            (cfg.maxStoredUsers / 2)).map Prod.fst)
          (dropIds (inactiveIds (now - cfg.userDataTtl) s.userActivity) s.userStates)
      else dropIds (inactiveIds (now - cfg.userDataTtl) s.userActivity) s.userStates := by
  simp only [aggressive_cleanup, ttlSurvivors, apply_ite BotState.userStates]

theorem aggressive_cleanup_userPreferences (cfg : BotConfig) (now : Int) (s : BotState) :
    (aggressive_cleanup cfg now s).userPreferences =
      if cfg.maxStoredUsers < (ttlSurvivors cfg now s.userActivity).length then
        keepIds
          (((sortKeyDesc (fun e => e.2) (ttlSurvivors cfg now s.userActivity)).take
            (cfg.maxStoredUsers / 2)).map Prod.fst)
          (dropIds (inactiveIds (now - cfg.userDataTtl) s.userActivity) s.userPreferences)
      else dropIds (inactiveIds (now - cfg.userDataTtl) s.userActivity) s.userPreferences := by
  simp only [aggressive_cleanup, ttlSurvivors, apply_ite BotState.userPreferences]

theorem lookupKey_dropIds {α : Type} (ids : List Nat) (u : Nat) (m : List (Nat × α)) :
    lookupKey u (dropIds ids m) = if ids.contains u then none else lookupKey u m := by
  unfold dropIds
  rw [lookupKey_filter_key (fun k => !ids.contains k)]
  by_cases h : ids.contains u <;> simp [h]

theorem lookupKey_keepIds {α : Type} (ids : List Nat) (u : Nat) (m : List (Nat × α)) :
    lookupKey u (keepIds ids m) = if ids.contains u then lookupKey u m else none := by
  unfold keepIds
  rw [lookupKey_filter_key (fun k => ids.contains k)]

theorem mem_keepIds {α : Type} {ids : List Nat} {m : List (Nat × α)} {a : Nat × α} :
    a ∈ keepIds ids m ↔ a ∈ m ∧ ids.contains a.1 = true := by
  unfold keepIds
  exact List.mem_filter

/-- The second pass of both cleanup functions: keeping the ids of the first
`k2` entries of the stable descending sort retains exactly `k2` entries, all
from the original map, and every retained entry's activity dominates every
discarded one's. -/
theorem trim_keep_spec (l : List (Nat × Int)) (k2 : Nat)
    (hn : (l.map Prod.fst).Nodup) (hk : k2 ≤ l.length) :
    (keepIds (((sortKeyDesc (fun e => e.2) l).take k2).map Prod.fst) l).length = k2 ∧
      (∀ e ∈ keepIds (((sortKeyDesc (fun e => e.2) l).take k2).map Prod.fst) l, e ∈ l) ∧
      (∀ e ∈ keepIds (((sortKeyDesc (fun e => e.2) l).take k2).map Prod.fst) l,
        ∀ d ∈ l, d ∉ keepIds (((sortKeyDesc (fun e => e.2) l).take k2).map Prod.fst) l →
          d.2 ≤ e.2) := by
  set srt := sortKeyDesc (fun e => e.2) l with hsrtdef
  set keep := (srt.take k2).map Prod.fst with hkeepdef
  have hperm : srt.Perm l := sortKeyDesc_perm _ _
  have hnsrt : (srt.map Prod.fst).Nodup := ((hperm.map Prod.fst).nodup_iff).2 hn
  have hkeepeq : keep = (srt.map Prod.fst).take k2 := by
    rw [hkeepdef, List.map_take]
  have hnkeep : keep.Nodup := by
    rw [hkeepeq]
    exact List.Nodup.sublist (List.take_sublist _ _) hnsrt
  have hkeepsub : ∀ x ∈ keep, x ∈ l.map Prod.fst := by
    intro x hx
    rw [hkeepeq] at hx
    exact (hperm.map Prod.fst).mem_iff.1 (List.take_subset _ _ hx)
  have hmapres : (keepIds keep l).map Prod.fst =
      (l.map Prod.fst).filter (fun k => keep.contains k) :=
    map_fst_filter_key (fun k => keep.contains k) l
  have hpermfilt : ((l.map Prod.fst).filter (fun k => keep.contains k)).Perm keep := by
    rw [List.perm_ext_iff_of_nodup (hn.filter _) hnkeep]
    intro a
    simp only [List.mem_filter]
    constructor
    · rintro ⟨_, ha⟩
      exact contains_iff_mem.1 ha
    · intro ha
      exact ⟨hkeepsub a ha, contains_iff_mem.2 ha⟩
  have hsrtlen : (srt.map Prod.fst).length = l.length := by
    rw [List.length_map]
    exact hperm.length_eq
  have hlenkeep : keep.length = k2 := by
    rw [hkeepeq, List.length_take]
    omega
  have hcount : (keepIds keep l).length = k2 := by
    have h1 : (keepIds keep l).length = ((keepIds keep l).map Prod.fst).length :=
      (List.length_map _ _).symm
    rw [h1, hmapres, hpermfilt.length_eq, hlenkeep]
  refine ⟨hcount, ?_, ?_⟩
  · intro e he
    exact (mem_keepIds.1 he).1
  · intro e he d hd hdnot
    obtain ⟨hel, hec⟩ := mem_keepIds.1 he
    have hdm : ¬keep.contains d.1 = true := fun hc => hdnot (mem_keepIds.2 ⟨hd, hc⟩)
    have hesrt : e ∈ srt := hperm.mem_iff.2 hel
    have hdsrt : d ∈ srt := hperm.mem_iff.2 hd
    have he1 : e.1 ∈ keep := contains_iff_mem.1 hec
    rw [hkeepdef] at he1
    obtain ⟨x, hxmem, hx1⟩ := List.mem_map.1 he1
    have hxsrt : x ∈ srt := List.take_subset _ _ hxmem
    have hxsrt2 : (e.1, x.2) ∈ srt := by
      rw [← hx1]
      exact hxsrt
    have hesrt2 : (e.1, e.2) ∈ srt := hesrt
    have hx2 : x.2 = e.2 := key_val_unique hnsrt hxsrt2 hesrt2
    have hxe : x = e := Prod.ext_iff.2 ⟨hx1, hx2⟩
    have hetake : e ∈ srt.take k2 := hxe ▸ hxmem
    have hddrop : d ∈ srt.drop k2 := by
      have hdin : d ∈ srt.take k2 ++ srt.drop k2 := by
        rw [List.take_append_drop]
        exact hdsrt
      rcases List.mem_append.1 hdin with hcase | hcase
      · exact absurd (contains_iff_mem.2 (by rw [hkeepdef]; exact List.mem_map_of_mem Prod.fst hcase)) hdm
      · exact hcase
    have hpw := sortKeyDesc_pairwise (fun e => e.2) l
    rw [← hsrtdef, ← List.take_append_drop k2 srt] at hpw
    exact (List.pairwise_append.1 hpw).2.2 e hetake d hddrop

/-- Claim C4: a `touch` (`update_user_activity`) that drives the activity map
above `max_stored_users` triggers `aggressive_cleanup`, which leaves the map
with at most `max_stored_users` entries; and when the map still exceeds the
capacity after TTL removal, exactly the `max_stored_users / 2` most recently
active survivors are kept: the result has exactly that many entries, every
surviving entry comes from the TTL survivors, and every surviving entry's
`last_activity` is at least that of every discarded TTL survivor.  The
`Nodup` hypothesis states that the store is an actual dict (one entry per
user id). -/
theorem c4_capacity_eviction (cfg : BotConfig) (u : Nat) (now : Int) (s : BotState)
    (hnodup : (s.userActivity.map Prod.fst).Nodup)
    (hover : cfg.maxStoredUsers < (setKey u now s.userActivity).length) :
    (update_user_activity cfg u now s).userActivity.length ≤ cfg.maxStoredUsers ∧
      (cfg.maxStoredUsers < (ttlSurvivors cfg now (setKey u now s.userActivity)).length →
        (update_user_activity cfg u now s).userActivity.length = cfg.maxStoredUsers / 2 ∧
        (∀ e ∈ (update_user_activity cfg u now s).userActivity,
          e ∈ ttlSurvivors cfg now (setKey u now s.userActivity)) ∧
        (∀ e ∈ (update_user_activity cfg u now s).userActivity,
          ∀ d ∈ ttlSurvivors cfg now (setKey u now s.userActivity),
            d ∉ (update_user_activity cfg u now s).userActivity → d.2 ≤ e.2)) := by
  have hproj : ({ s with userActivity := setKey u now s.userActivity } : BotState).userActivity
      = setKey u now s.userActivity := rfl
  have hupd : (update_user_activity cfg u now s).userActivity =
      (aggressive_cleanup cfg now
        { s with userActivity := setKey u now s.userActivity }).userActivity := by
    unfold update_user_activity
    rw [if_pos (by rw [hproj]; exact hover)]
  rw [hupd, aggressive_cleanup_userActivity, hproj]
  by_cases h2 : cfg.maxStoredUsers < (ttlSurvivors cfg now (setKey u now s.userActivity)).length
  · rw [if_pos h2]
    have hn1 : ((ttlSurvivors cfg now (setKey u now s.userActivity)).map Prod.fst).Nodup := by
      unfold ttlSurvivors dropIds
      have hn0 := nodup_keys_setKey u now s.userActivity hnodup
      rw [map_fst_filter_key
        (fun k => !(inactiveIds (now - cfg.userDataTtl) (setKey u now s.userActivity)).contains k)]
      exact hn0.filter _
    have hk : cfg.maxStoredUsers / 2 ≤
        (ttlSurvivors cfg now (setKey u now s.userActivity)).length := by
      have := Nat.div_le_self cfg.maxStoredUsers 2
      omega
    obtain ⟨hlen, hmem, hdom⟩ :=
      trim_keep_spec (ttlSurvivors cfg now (setKey u now s.userActivity))
        (cfg.maxStoredUsers / 2) hn1 hk
    refine ⟨?_, fun _ => ⟨hlen, hmem, hdom⟩⟩
    rw [hlen]
    exact le_trans (Nat.div_le_self _ _) (le_refl _)
  · rw [if_neg h2]
    exact ⟨by omega, fun hc => absurd hc h2⟩

/-- Witness for `c4_capacity_eviction`: a store of capacity 4 holding four
fresh users; touching a fifth triggers the eviction, which keeps the two most
recently active users. -/
theorem c4_capacity_eviction_witness :
    (update_user_activity ⟨4, 1800⟩ 5 14 ⟨[], [], [(1, 10), (2, 11), (3, 12), (4, 13)]⟩
        ).userActivity.length ≤ 4 ∧
      (4 < (ttlSurvivors ⟨4, 1800⟩ 14 (setKey 5 14 [(1, 10), (2, 11), (3, 12), (4, 13)])).length →
        (update_user_activity ⟨4, 1800⟩ 5 14 ⟨[], [], [(1, 10), (2, 11), (3, 12), (4, 13)]⟩
            ).userActivity.length = 4 / 2 ∧
        (∀ e ∈ (update_user_activity ⟨4, 1800⟩ 5 14
            ⟨[], [], [(1, 10), (2, 11), (3, 12), (4, 13)]⟩).userActivity,
          e ∈ ttlSurvivors ⟨4, 1800⟩ 14 (setKey 5 14 [(1, 10), (2, 11), (3, 12), (4, 13)])) ∧
        (∀ e ∈ (update_user_activity ⟨4, 1800⟩ 5 14
            ⟨[], [], [(1, 10), (2, 11), (3, 12), (4, 13)]⟩).userActivity,
          ∀ d ∈ ttlSurvivors ⟨4, 1800⟩ 14 (setKey 5 14 [(1, 10), (2, 11), (3, 12), (4, 13)]),
            d ∉ (update_user_activity ⟨4, 1800⟩ 5 14
              ⟨[], [], [(1, 10), (2, 11), (3, 12), (4, 13)]⟩).userActivity → d.2 ≤ e.2)) :=
  c4_capacity_eviction ⟨4, 1800⟩ 5 14 ⟨[], [], [(1, 10), (2, 11), (3, 12), (4, 13)]⟩
    (by decide) (by decide)

/-- Claim C5, counterexample.  The claim states that an expired session is
removed by any subsequent eviction pass regardless of how many sessions the
store holds.  The webhook variant's `cleanup_old_users` returns immediately
when the store holds at most `MAX_USERS` entries (src/flask_app.py lines
57-58): a store holding one user idle for 10000 - 0 seconds, far beyond the
1800-second TTL, is returned unchanged. -/
theorem c5_counterexample :
    (1800 : Int) < 10000 - (0 : Int) ∧
      cleanup_old_users 100 1800 10000 [(1, staleRec)] = [(1, staleRec)] := by
  decide

/-- Claim C5, amended.  In the main bot, `aggressive_cleanup` removes every
expired session unconditionally — no size guard.  In the webhook variant,
`cleanup_old_users` removes expired sessions only when the store holds more
than `MAX_USERS` entries; below that threshold no TTL pass runs at all. -/
theorem c5_ttl_eviction :
    (∀ (cfg : BotConfig) (now : Int) (s : BotState) (u : Nat) (a : Int),
      (u, a) ∈ s.userActivity → cfg.userDataTtl < now - a →
      lookupKey u (aggressive_cleanup cfg now s).userActivity = none) ∧
    (∀ (M : Nat) (TTL now : Int) (ud : List (Nat × FlaskRec)) (u : Nat) (r : FlaskRec),
      (u, r) ∈ ud → TTL < now - r.lastActivity → M < ud.length →
      lookupKey u (cleanup_old_users M TTL now ud) = none) := by
  constructor
  · intro cfg now s u a hmem hexp
    have hu : u ∈ inactiveIds (now - cfg.userDataTtl) s.userActivity := by
      unfold inactiveIds
      exact List.mem_map_of_mem Prod.fst
        (List.mem_filter.2 ⟨hmem, by simpa using (by omega : a < now - cfg.userDataTtl)⟩)
    have h1 : lookupKey u (ttlSurvivors cfg now s.userActivity) = none := by
      unfold ttlSurvivors
      rw [lookupKey_dropIds, if_pos (contains_iff_mem.2 hu)]
    rw [aggressive_cleanup_userActivity]
    by_cases h2 : cfg.maxStoredUsers < (ttlSurvivors cfg now s.userActivity).length
    · rw [if_pos h2, lookupKey_keepIds]
      split
      · exact h1
      · rfl
    · rw [if_neg h2]
      exact h1
  · intro M TTL now ud u r hmem hexp hlen
    have hu : u ∈ (ud.filter (fun e => TTL < now - e.2.lastActivity)).map Prod.fst :=
      List.mem_map_of_mem Prod.fst (List.mem_filter.2 ⟨hmem, by simpa using hexp⟩)
    have hrem : lookupKey u
        (dropIds ((ud.filter (fun e => TTL < now - e.2.lastActivity)).map Prod.fst) ud) = none := by
      rw [lookupKey_dropIds, if_pos (contains_iff_mem.2 hu)]
    simp only [cleanup_old_users]
    rw [if_neg (by omega)]
    split
    · rw [lookupKey_eq_none_iff]
      intro hinkeys
      obtain ⟨x, hxmem, hx1⟩ := List.mem_map.1 hinkeys
      have hxsort : x ∈ sortKeyDesc (fun (e : Nat × FlaskRec) => e.2.lastActivity)
          (dropIds ((ud.filter
            (fun (e : Nat × FlaskRec) => TTL < now - e.2.lastActivity)).map Prod.fst) ud) :=
        List.take_subset _ _ hxmem
      have hxrem :=
        (sortKeyDesc_perm (fun (e : Nat × FlaskRec) => e.2.lastActivity) _).mem_iff.1 hxsort
      have hukeys : u ∈ (dropIds ((ud.filter
          (fun (e : Nat × FlaskRec) => TTL < now - e.2.lastActivity)).map Prod.fst)
          ud).map Prod.fst := hx1 ▸ List.mem_map_of_mem Prod.fst hxrem
      exact (lookupKey_eq_none_iff u _).1 hrem hukeys
    · exact hrem

/-- Witness for `c5_ttl_eviction`: an expired user is removed by
`aggressive_cleanup` even in a one-user store, and by `cleanup_old_users` in a
store above its capacity. -/
theorem c5_ttl_eviction_witness :
    lookupKey 1 (aggressive_cleanup ⟨200, 1800⟩ 10000
        (⟨[], [], [(1, 0)]⟩ : BotState)).userActivity = none ∧
      lookupKey 1 (cleanup_old_users 1 1800 10000 [(1, staleRec), (2, staleRec)]) = none :=
  ⟨c5_ttl_eviction.1 ⟨200, 1800⟩ 10000 ⟨[], [], [(1, 0)]⟩ 1 0 (by decide) (by decide),
    c5_ttl_eviction.2 1 1800 10000 [(1, staleRec), (2, staleRec)] 1 staleRec
      (by decide) (by decide) (by decide)⟩

/-! ## Claim C9 machinery: preservation of the state-preference invariant -/

theorem inv_initial : InvStatePref initialBotState := by
  intro u h
  simp [initialBotState, lookupKey] at h

theorem inv_set_state_choosing (s : BotState) (u : Nat) (h : InvStatePref s) :
    InvStatePref { s with userStates := setKey u SessState.choosingType s.userStates } := by
  intro v hv
  simp only at hv
  by_cases hvu : v = u
  · subst hvu
    rw [lookupKey_setKey_self] at hv
    simp at hv
  · rw [lookupKey_setKey_ne u v _ _ hvu] at hv
    exact h v hv

theorem inv_aggressive_cleanup (cfg : BotConfig) (now : Int) (s : BotState)
    (h : InvStatePref s) : InvStatePref (aggressive_cleanup cfg now s) := by
  intro v hv
  rw [aggressive_cleanup_userStates] at hv
  rw [aggressive_cleanup_userPreferences]
  by_cases h2 : cfg.maxStoredUsers < (ttlSurvivors cfg now s.userActivity).length
  · rw [if_pos h2] at hv ⊢
    rw [lookupKey_keepIds] at hv ⊢
    split at hv
    · rename_i hc
      rw [if_pos hc]
      rw [lookupKey_dropIds] at hv ⊢
      split at hv
      · simp at hv
      · rename_i hnc
        rw [if_neg hnc]
        exact h v hv
    · simp at hv
  · rw [if_neg h2] at hv ⊢
    rw [lookupKey_dropIds] at hv ⊢
    split at hv
    · simp at hv
    · rename_i hnc
      rw [if_neg hnc]
      exact h v hv

theorem inv_update_user_activity (cfg : BotConfig) (u : Nat) (now : Int) (s : BotState)
    (h : InvStatePref s) : InvStatePref (update_user_activity cfg u now s) := by
  show InvStatePref
    (if cfg.maxStoredUsers < (setKey u now s.userActivity).length then
      aggressive_cleanup cfg now { s with userActivity := setKey u now s.userActivity }
    else { s with userActivity := setKey u now s.userActivity })
  split
  · apply inv_aggressive_cleanup
    intro v hv
    exact h v hv
  · intro v hv
    exact h v hv

theorem inv_start_command (cfg : BotConfig) (u : Nat) (now : Int) (s : BotState)
    (h : InvStatePref s) : InvStatePref (start_command cfg u now s) :=
  inv_set_state_choosing _ u (inv_update_user_activity cfg u now s h)

theorem inv_restart_cycle (cfg : BotConfig) (u : Nat) (now : Int) (s : BotState)
    (h : InvStatePref s) : InvStatePref (restart_cycle cfg u now s) :=
  inv_set_state_choosing _ u (inv_update_user_activity cfg u now s h)

theorem inv_handle_quiz_type_selection (cfg : BotConfig) (u : Nat) (anon : Bool) (now : Int)
    (s : BotState) (h : InvStatePref s) :
    InvStatePref (handle_quiz_type_selection cfg u anon now s) := by
  intro v hv
  unfold handle_quiz_type_selection at hv ⊢
  simp only at hv ⊢
  by_cases hvu : v = u
  · subst hvu
    rw [lookupKey_setKey_self]
    rfl
  · rw [lookupKey_setKey_ne u v _ _ hvu] at hv
    rw [lookupKey_setKey_ne u v _ _ hvu]
    exact inv_update_user_activity cfg u now s h v hv

theorem handle_json_message_cases (cfg : BotConfig) (u : Nat) (payload : Option PyVal)
    (sendOk : Nat → Bool) (msgOk : Bool) (now : Int) (s : BotState) :
    (handle_json_message cfg u payload sendOk msgOk now s).1 =
        update_user_activity cfg u now s ∨
      (handle_json_message cfg u payload sendOk msgOk now s).1 =
        start_command cfg u now (update_user_activity cfg u now s) ∨
      (handle_json_message cfg u payload sendOk msgOk now s).1 =
        restart_cycle cfg u now (update_user_activity cfg u now s) := by
  simp only [handle_json_message]
  repeat' split
  all_goals
    first
      | exact Or.inl rfl
      | exact Or.inr (Or.inl rfl)
      | exact Or.inr (Or.inr rfl)

theorem inv_handle_json_message (cfg : BotConfig) (u : Nat) (payload : Option PyVal)
    (sendOk : Nat → Bool) (msgOk : Bool) (now : Int) (s : BotState) (h : InvStatePref s) :
    InvStatePref (handle_json_message cfg u payload sendOk msgOk now s).1 := by
  rcases handle_json_message_cases cfg u payload sendOk msgOk now s with hc | hc | hc <;> rw [hc]
  · exact inv_update_user_activity cfg u now s h
  · exact inv_start_command cfg u now _ (inv_update_user_activity cfg u now s h)
  · exact inv_restart_cycle cfg u now _ (inv_update_user_activity cfg u now s h)

/-- Claim C9: in every reachable store of the main bot, a session in state
"waiting_for_json" has a recorded anonymity preference.
`handle_quiz_type_selection`, the only writer of that state, records the
preference immediately before; and every eviction path — TTL removal,
capacity trimming, the fail-safe clear — filters `user_states` and
`user_preferences` with the same id sets, so the two entries leave
together. -/
theorem c9_invariant (cfg : BotConfig) (evs : List BotEvent) :
    InvStatePref (applyEvents cfg evs) := by
  suffices h : ∀ (s : BotState), InvStatePref s → InvStatePref (evs.foldl (stepEvent cfg) s) from
    h initialBotState inv_initial
  induction evs with
  | nil => intro s hs; exact hs
  | cons e rest ih =>
    intro s hs
    simp only [List.foldl_cons]
    apply ih
    cases e with
    | start u now => exact inv_start_command cfg u now s hs
    | selectType u anon now => exact inv_handle_quiz_type_selection cfg u anon now s hs
    | jsonMessage u payload sendOk msgOk now =>
      exact inv_handle_json_message cfg u payload sendOk msgOk now s hs
    | touchOnly u now => exact inv_update_user_activity cfg u now s hs
    | maintenance now => exact inv_aggressive_cleanup cfg now s hs
    | emergency => exact inv_initial

/-- Witness for `c9_invariant`: after `/start` and an anonymous-type
selection, user 7 is in state "waiting_for_json" and the invariant yields a
recorded preference. -/
theorem c9_invariant_witness :
    (lookupKey 7 (applyEvents ⟨200, 1800⟩
      [BotEvent.start 7 0, BotEvent.selectType 7 true 1]).userPreferences).isSome = true :=
  c9_invariant ⟨200, 1800⟩ [BotEvent.start 7 0, BotEvent.selectType 7 true 1] 7 (by decide)

/-! ## Claim C6: the payload handler always exits WaitingForJson? -/

/-- Under the waiting-state check of `handle_json_message`, every branch ends
in `restart_cycle`. -/
theorem handle_json_message_waiting (cfg : BotConfig) (u : Nat) (payload : Option PyVal)
    (sendOk : Nat → Bool) (msgOk : Bool) (now : Int) (s : BotState)
    (hwait : lookupKey u (update_user_activity cfg u now s).userStates =
      some SessState.waitingJson) :
    (handle_json_message cfg u payload sendOk msgOk now s).1 =
      restart_cycle cfg u now (update_user_activity cfg u now s) := by
  simp only [handle_json_message]
  rw [if_neg (fun hc => hc hwait)]
  repeat' split
  all_goals rfl

/-- Claim C6, counterexample.  The claim states that after handling a
free-text payload in state WaitingForJson the session is always back in
ChoosingType, also for malformed payloads.  In the webhook variant's
`handle_json`, the `json.JSONDecodeError` branch sends an error message and
returns without touching the store: user 7, waiting, who sent an unparseable
payload, is still in state "waiting_json" and not in "choosing_type". -/
theorem c6_counterexample :
    stateOf 7 (flask_handle_json none 7 5 [(7, waitingRec)]) = some SessState.waitingJson ∧
      ¬stateOf 7 (flask_handle_json none 7 5 [(7, waitingRec)]) =
        some SessState.choosingType := by
  decide

/-- Claim C6, amended.  In the main bot the claim holds: whenever the handler
observes state "waiting_for_json", every outcome — malformed payload,
processing fault, no questions, no valid questions, successful or failed
sending — ends in `restart_cycle`, leaving the session in "choosing_type".
In the webhook variant only a successfully processed payload resets the
state; a payload that fails `json.loads` leaves the session in
"waiting_json". -/
theorem c6_state_reset :
    (∀ (cfg : BotConfig) (u : Nat) (payload : Option PyVal) (sendOk : Nat → Bool)
        (msgOk : Bool) (now : Int) (s : BotState),
      lookupKey u (update_user_activity cfg u now s).userStates = some SessState.waitingJson →
      lookupKey u ((handle_json_message cfg u payload sendOk msgOk now s).1).userStates =
        some SessState.choosingType) ∧
    (∀ (u : Nat) (now : Int) (ud : List (Nat × FlaskRec)),
      stateOf u ud = some SessState.waitingJson →
      stateOf u (flask_handle_json none u now ud) = some SessState.waitingJson) := by
  constructor
  · intro cfg u payload sendOk msgOk now s hwait
    rw [handle_json_message_waiting cfg u payload sendOk msgOk now s hwait]
    exact lookupKey_setKey_self u SessState.choosingType _
  · intro u now ud hw
    unfold flask_handle_json
    rw [if_neg (fun hc => hc hw)]
    exact hw

/-- Witness for `c6_state_reset`: the main bot resets waiting user 7 to
"choosing_type" on a malformed payload, while the webhook variant leaves the
same user in "waiting_json". -/
theorem c6_state_reset_witness :
    lookupKey 7 ((handle_json_message ⟨200, 1800⟩ 7 none (fun _ => true) true 5
        sWait).1).userStates = some SessState.choosingType ∧
      stateOf 7 (flask_handle_json none 7 5 [(7, waitingRec)]) = some SessState.waitingJson :=
  ⟨c6_state_reset.1 ⟨200, 1800⟩ 7 none (fun _ => true) true 5 sWait (by decide),
    c6_state_reset.2 7 5 [(7, waitingRec)] (by decide)⟩

/-! ## Claim C7: bad correct indexes are clamped, never fatal? -/

/-- Claim C7, counterexample.  The claim quantifies over every question entry
whose options list has 2 to 4 items and states such an entry is always
retained with the correct index clamped to 0.  The validator of
`handle_json_message` also requires a question text: the entry
`{"o": ["A", "B"], "c": 5}` has a 2-item options list and a bad correct
index, yet is dropped (`validateQuestion` yields `none`) because no text
alias answers — so it is not retained with `correctIndex = 0`. -/
theorem c7_counterexample :
    probeTruthy ["o", "options", "choices", "answers"] entryNoTextFields =
        some (PyVal.arr [PyVal.str "A", PyVal.str "B"]) ∧
      validateQuestion (PyVal.obj entryNoTextFields) = none :=
  ⟨rfl, rfl⟩

/-- Claim C7, amended.  For every question entry that passes the text and
options checks (a truthy text alias, and an options alias holding a list of 2
to 4 items), a correct index that is absent, not an integer, negative, or at
least the number of options never causes a drop: the entry is retained in
full, with `correctIndex` clamped to 0. -/
theorem c7_correct_index_clamp (fields : List (String × PyVal)) (qText : PyVal)
    (os : List PyVal)
    (ht : probeTruthy ["q", "question", "text", "question_text"] fields = some qText)
    (ho : probeTruthy ["o", "options", "choices", "answers"] fields = some (PyVal.arr os))
    (h2 : 2 ≤ os.length) (h4 : os.length ≤ 4)
    (hbad : ∀ n : Int,
      (probeNotNull ["c", "correct", "correct_option_id", "answer", "correct_answer"]
        fields).bind PyVal.asInt = some n → n < 0 ∨ (os.length : Int) ≤ n) :
    ∃ r, validateQuestion (PyVal.obj fields) = some r ∧ r.c = 0 ∧
      r.o.length = os.length := by
  simp only [validateQuestion, ht, ho]
  rw [if_neg (by omega)]
  refine ⟨_, rfl, ?_, ?_⟩
  · show clampCorrect
      (probeNotNull ["c", "correct", "correct_option_id", "answer", "correct_answer"] fields)
      os.length = 0
    cases hp : probeNotNull ["c", "correct", "correct_option_id", "answer", "correct_answer"]
        fields with
    | none => rfl
    | some w =>
      simp only [clampCorrect]
      cases hw : w.asInt with
      | none => rfl
      | some n =>
        have hout := hbad n (by rw [hp]; simpa using hw)
        show (if n < 0 ∨ (os.length : Int) ≤ n then (0 : Int) else n) = 0
        rw [if_pos hout]
  · show ((os.take 4).map (fun opt => (PyVal.pyStr opt).take 100)).length = os.length
    rw [List.length_map, List.length_take]
    omega

/-- Witness for `c7_correct_index_clamp`: the entry with text, two options
and `c = 5` is retained with `correctIndex = 0`. -/
theorem c7_correct_index_clamp_witness :
    ∃ r, validateQuestion (PyVal.obj entryBadIndexFields) = some r ∧ r.c = 0 ∧
      r.o.length = 2 :=
  c7_correct_index_clamp entryBadIndexFields (PyVal.str "Capital?")
    [PyVal.str "A", PyVal.str "B"] rfl rfl (by decide) (by decide)
    (by
      intro n hn
      have h5 : some (5 : Int) = some n := hn
      have hn5 : (5 : Int) = n := by injection h5
      have hlen : (([PyVal.str "A", PyVal.str "B"] : List PyVal).length : Int) = 2 := rfl
      omega)

/-! ## Claim C8: oversized payloads are truncated to the first 50? -/

/-- Claim C8, counterexample.  The claim states that a payload with more than
50 question entries has exactly its first 50 entries processed.  The webhook
variant's `handle_json` caps the poll loop at `max_questions = 20`: a payload
of 51 well-formed entries yields only 20 attempted polls, not 50. -/
theorem c8_counterexample :
    (List.replicate 51 twoOptionEntry).length = 51 ∧
      (flask_poll_calls (List.replicate 51 twoOptionEntry)).length = 20 ∧
      ¬(flask_poll_calls (List.replicate 51 twoOptionEntry)).length = 50 := by
  decide

/-- Claim C8, amended.  The main bot's validator processes exactly the first
50 entries (validation of the full list equals validation of its first 50)
and produces at most 50 records; the webhook variant processes exactly the
first 20 entries and attempts at most 20 polls.  In both, extra entries are
silently dropped, never causing a rejection. -/
theorem c8_batch_truncation (questions : List PyVal) :
    validQuestions questions = validQuestions (questions.take 50) ∧
      (validQuestions questions).length ≤ 50 ∧
      flask_poll_calls questions = flask_poll_calls (questions.take 20) ∧
      (flask_poll_calls questions).length ≤ 20 := by
  refine ⟨?_, ?_, ?_, ?_⟩
  · unfold validQuestions
    simp [List.take_take]
  · exact le_trans (List.length_filterMap_le _ _)
      (by rw [List.length_take]; exact min_le_left _ _)
  · unfold flask_poll_calls
    simp [List.take_take]
  · exact le_trans (List.length_filterMap_le _ _)
      (by rw [List.enum_length, List.length_take]; exact min_le_left _ _)

/-! ## Claim C10: the webhook dispatcher -/

theorem stateOf_flask_update_user_activity (v u : Nat) (now : Int)
    (ud : List (Nat × FlaskRec)) :
    stateOf v (flask_update_user_activity u now ud) = stateOf v ud := by
  unfold flask_update_user_activity stateOf
  cases hl : lookupKey u ud with
  | some r =>
    by_cases hv : v = u
    · subst hv
      rw [lookupKey_setKey_self, hl]
    · rw [lookupKey_setKey_ne u v _ _ hv]
  | none =>
    by_cases hv : v = u
    · subst hv
      rw [lookupKey_append, hl]
      simp [lookupKey]
    · rw [lookupKey_append]
      cases h2 : lookupKey v ud with
      | some r2 => simp
      | none =>
        have hv2 : u ≠ v := Ne.symm hv
        simp [lookupKey, hv2]

/-- Claim C10: in the webhook variant, a non-command text (none of the four
command prefixes of `handle_message` matches its stripped form) is routed to
the payload handler `handle_json` exactly when it starts with a brace or
contains the substring quoted-all_q; every other free text takes the welcome
branch, which only sends the prompt and stamps activity — the "state" field
of every user, including one waiting in "waiting_json", is unchanged, so such
a payload is never validated. -/
theorem c10_dispatch (text : String) (u : Nat) (now : Int) (parse : String → Option PyVal)
    (ud : List (Nat × FlaskRec))
    (hcmd : "/start".data.isPrefixOf (pyStrip text) = false ∧
      "/help".data.isPrefixOf (pyStrip text) = false ∧
      "/status".data.isPrefixOf (pyStrip text) = false ∧
      "/template".data.isPrefixOf (pyStrip text) = false) :
    (dispatchText text = FlaskRoute.jsonPayload ↔
      ("\x7b".data.isPrefixOf (pyStrip text) = true ∨
        hasSubstrAux "\"all_q\"".data (pyStrip text) = true)) ∧
    (dispatchText text = FlaskRoute.welcome →
      ∀ v, stateOf v (flask_handle_message text u now parse ud) = stateOf v ud) := by
  obtain ⟨h1, h2, h3, h4⟩ := hcmd
  have hd : dispatchText text =
      (if "\x7b".data.isPrefixOf (pyStrip text) || hasSubstrAux "\"all_q\"".data (pyStrip text)
        then FlaskRoute.jsonPayload else FlaskRoute.welcome) := by
    unfold dispatchText
    simp [h1, h2, h3, h4]
  constructor
  · rw [hd]
    by_cases hb : ("\x7b".data.isPrefixOf (pyStrip text) ||
        hasSubstrAux "\"all_q\"".data (pyStrip text)) = true
    · rw [if_pos hb]
      exact iff_of_true rfl (Bool.or_eq_true_iff.1 hb)
    · rw [if_neg hb]
      constructor
      · intro hcontra
        simp at hcontra
      · intro hor
        exact absurd (Bool.or_eq_true_iff.2 hor) hb
  · intro hw v
    unfold flask_handle_message
    rw [hw]
    exact stateOf_flask_update_user_activity v u now ud

/-- Witness for `c10_dispatch`: the free text "hello quiz" is not routed to
the payload handler, and the welcome branch leaves the state of waiting user
7 unchanged. -/
theorem c10_dispatch_witness :
    (dispatchText "hello quiz" = FlaskRoute.jsonPayload ↔
      ("\x7b".data.isPrefixOf (pyStrip "hello quiz") = true ∨
        hasSubstrAux "\"all_q\"".data (pyStrip "hello quiz") = true)) ∧
    (dispatchText "hello quiz" = FlaskRoute.welcome →
      ∀ v, stateOf v (flask_handle_message "hello quiz" 7 5 (fun _ => none)
        [(7, waitingRec)]) = stateOf v [(7, waitingRec)]) :=
  c10_dispatch "hello quiz" 7 5 (fun _ => none) [(7, waitingRec)] (by decide)
